import Mathlib

/-!
Verification of the second-pass lexical disambiguator of `pkg/sql/parser/lexer.go`
(CockroachDB SQL parser): the `Lex` token-rewriting rules, the synthetic EOF token,
`lastToken`, placeholder counting (`UpdateNumPlaceholders`), and the diagnostic
builder (`PopulateErrorDetails`, `SetHelp`).

Shallow embedding conventions:
* Go `sqlSymType` (as used by `lexer.go`) is a record of `id` (int32 terminal
  code), `pos` (int32 byte offset) and `str` (literal text).  Go `int32` values
  here are modelled as `Int` (no arithmetic is performed on them, only
  comparisons, so overflow is not a concern).
* The Go token slice is a `List sqlSymType`; source text is a `String`
  (byte positions of the Go code become character positions of `String.data`).
* Go errors built by `lexer.go` through the `errors` package are modelled by the
  inductive `GoError` below, with `errMsg` giving the `Error()` rendering
  (`errors.Wrap(err, m).Error() = m ++ ": " ++ err.Error()`).
-/

/-- Token produced by the scanner: terminal `id`, source offset `pos`,
literal text `str` (the fields of `sqlSymType` read by `lexer.go`). -/
structure sqlSymType where
  id : Int
  pos : Int
  str : String
  deriving Repr, DecidableEq

/-- The Go zero value `sqlSymType{}`. -/
def zeroTok : sqlSymType := ⟨0, 0, ""⟩

/-! ### Terminal codes

Modelled from the spec: the terminal codes (`INDEX`, `SET`, ... and the
rewritten variants such as `INDEX_BEFORE_PAREN`) are generated by goyacc from
`sql.y`, which is not among the shown files.  The spec's data model fixes what
matters about them: codes of multi-character keywords/identifiers/operators are
distinct integers strictly greater than 255, while single-character punctuation
tokens carry their character code (`','` = 44, `'('` = 40, `'.'` = 46,
`'@'` = 64).  The concrete values below are arbitrary subject to that. -/

def NOTHING : Int := 600
def RETURNING : Int := 601
def NOTHING_AFTER_RETURNING : Int := 602
def INDEX : Int := 603
def OPTIONS : Int := 604
def INVERTED : Int := 605
def INDEX_BEFORE_PAREN : Int := 606
def INDEX_BEFORE_NAME_THEN_PAREN : Int := 607
def BY : Int := 608
def ORDER : Int := 609
def INDEX_AFTER_ORDER_BY_BEFORE_AT : Int := 610
def NOT : Int := 611
def WITH : Int := 612
def AS : Int := 613
def GENERATED : Int := 614
def NULLS : Int := 615
def RESET : Int := 616
def ROLE : Int := 617
def USER : Int := 618
def ON : Int := 619
def TENANT : Int := 620
def CLUSTER : Int := 621
def SET : Int := 622
def OF : Int := 623
def SYSTEM : Int := 624
def AS_LA : Int := 625
def BETWEEN : Int := 626
def IN : Int := 627
def LIKE : Int := 628
def ILIKE : Int := 629
def SIMILAR : Int := 630
def NOT_LA : Int := 631
def ALWAYS : Int := 632
def GENERATED_ALWAYS : Int := 633
def GENERATED_BY_DEFAULT : Int := 634
def TIME : Int := 635
def ORDINALITY : Int := 636
def BUCKET_COUNT : Int := 637
def WITH_LA : Int := 638
def FIRST : Int := 639
def LAST : Int := 640
def NULLS_LA : Int := 641
def ALL : Int := 642
def RESET_ALL : Int := 643
def ROLE_ALL : Int := 644
def USER_ALL : Int := 645
def DELETE : Int := 646
def UPDATE : Int := 647
def NO : Int := 648
def RESTRICT : Int := 649
def CASCADE : Int := 650
def ON_LA : Int := 651
def TENANT_ALL : Int := 652
def CLUSTER_ALL : Int := 653
def TRACING : Int := 654
def SESSION : Int := 655
def SET_TRACING : Int := 656
def ERROR : Int := 657
def HELPTOKEN : Int := 658
def IDENT : Int := 659

/-! ### Bounded window lookups

`lexer.go` reads neighbors of the current position with explicit bounds
checks (`if l.lastPos > 0 { prevID = l.tokens[l.lastPos-1].id }` and so on);
an unfetched neighbor keeps the zero value (id 0 / empty string). -/

/-- `tokens[n]`, with the Go zero value out of range (all in-code accesses
are bounds-guarded, so the default is never observed by in-range reads). -/
def tokenAt : List sqlSymType → Nat → sqlSymType
  | [], _ => zeroTok
  | t :: _, 0 => t
  | _ :: ts, n + 1 => tokenAt ts n

/-- `prevID` of `Lex` at position `pos`: `tokens[pos-1].id` if `pos > 0`, else 0. -/
def prevIdAt (toks : List sqlSymType) (pos : Nat) : Int :=
  if 0 < pos then (tokenAt toks (pos - 1)).id else 0

/-- `pprevID` of `Lex`: `tokens[pos-2].id` if `pos > 1`, else 0. -/
def pprevIdAt (toks : List sqlSymType) (pos : Nat) : Int :=
  if 1 < pos then (tokenAt toks (pos - 2)).id else 0

/-- `nextID` of `Lex`: `tokens[pos+1].id` if in range, else 0. -/
def nextIdAt (toks : List sqlSymType) (pos : Nat) : Int :=
  if pos + 1 < toks.length then (tokenAt toks (pos + 1)).id else 0

/-- `secondID` of `Lex`: `tokens[pos+2].id` if in range, else 0. -/
def secondIdAt (toks : List sqlSymType) (pos : Nat) : Int :=
  if pos + 2 < toks.length then (tokenAt toks (pos + 2)).id else 0

/-- `nextToken` of `Lex`: `tokens[pos+1]` if in range, else the zero value. -/
def nextTokAt (toks : List sqlSymType) (pos : Nat) : sqlSymType :=
  if pos + 1 < toks.length then tokenAt toks (pos + 1) else zeroTok

/-- `secondToken` of `Lex`: `tokens[pos+2]` if in range, else the zero value. -/
def secondTokAt (toks : List sqlSymType) (pos : Nat) : sqlSymType :=
  if pos + 2 < toks.length then tokenAt toks (pos + 2) else zeroTok

/-- `thirdToken` of `Lex`: `tokens[pos+3]` if in range, else the zero value. -/
def thirdTokAt (toks : List sqlSymType) (pos : Nat) : sqlSymType :=
  if pos + 3 < toks.length then tokenAt toks (pos + 3) else zeroTok

/-- The forward scan of the `ORDER BY ... INDEX` rule of `Lex`
(`for i := l.lastPos + 1; i < len(l.tokens) && i < l.lastPos+7; i++ ...`):
returns whether `atSignAfterObjectName` is set.  `pos` is `l.lastPos`;
the loop breaks (no match) on a token with id `< 255` other than `'.'`/`'@'`,
and matches on `'@'` unless it immediately follows the INDEX keyword.
The loop body runs at most 6 times (`i` ranges over `pos+1 .. pos+6`), so it
is written with a structural fuel argument, started at 6; the Go bound
`i < pos + 7` is kept verbatim in the guard. -/
def atScanLoop (toks : List sqlSymType) (pos : Nat) : Nat → Nat → Bool
  | 0, _ => false
  | fuel + 1, i =>
    if i < toks.length ∧ i < pos + 7 then
      if (tokenAt toks i).id < 255 ∧ (tokenAt toks i).id ≠ 46 ∧ (tokenAt toks i).id ≠ 64 then
        false
      else if (tokenAt toks i).id = 64 then
        if i = pos + 1 then false else true
      else
        atScanLoop toks pos fuel (i + 1)
    else
      false

/-- The `case INDEX` arm of `Lex`.  The three `if` groups are, in source
order: the `INDEX (` group (conditions `afterCommaOrParen`,
`afterCommaOrOPTIONS`, `afterCommaOrParenThenINVERTED`, each conjoined with
`followedByParen`), the `INDEX name (` group (`afterCommaOrParen` and
`afterCommaOrParenThenINVERTED` only, conjoined with
`followedByNonPunctThenParen`), and the `ORDER BY` group
(`afterCommaOrOrderBy` plus the forward `'@'` scan). -/
def indexRewrite (toks : List sqlSymType) (pos : Nat) : Int :=
  if ((prevIdAt toks pos = 44 ∨ prevIdAt toks pos = 40) ∧ nextIdAt toks pos = 40)
      ∨ ((prevIdAt toks pos = 44 ∨ prevIdAt toks pos = OPTIONS) ∧ nextIdAt toks pos = 40)
      ∨ ((prevIdAt toks pos = INVERTED ∧ (pprevIdAt toks pos = 44 ∨ pprevIdAt toks pos = 40))
          ∧ nextIdAt toks pos = 40) then
    INDEX_BEFORE_PAREN
  else if ((prevIdAt toks pos = 44 ∨ prevIdAt toks pos = 40)
          ∧ (255 < nextIdAt toks pos ∧ secondIdAt toks pos = 40))
      ∨ ((prevIdAt toks pos = INVERTED ∧ (pprevIdAt toks pos = 44 ∨ pprevIdAt toks pos = 40))
          ∧ (255 < nextIdAt toks pos ∧ secondIdAt toks pos = 40)) then
    INDEX_BEFORE_NAME_THEN_PAREN
  else if (prevIdAt toks pos = 44 ∨ (prevIdAt toks pos = BY ∧ pprevIdAt toks pos = ORDER))
      ∧ atScanLoop toks pos 6 (pos + 1) = true then
    INDEX_AFTER_ORDER_BY_BEFORE_AT
  else
    INDEX

/-- The `case NOT, WITH, AS, GENERATED, NULLS, RESET, ROLE, USER, ON, TENANT,
CLUSTER, SET` arm of `Lex` (one-to-three token lookahead); `id` is the current
token's id, returned unchanged when no inner case fires. -/
def lookaheadRewrite (toks : List sqlSymType) (pos : Nat) (id : Int) : Int :=
  if id = AS then
    if (nextTokAt toks pos).id = OF ∧ (secondTokAt toks pos).id = SYSTEM then AS_LA else id
  else if id = NOT then
    if (nextTokAt toks pos).id = BETWEEN ∨ (nextTokAt toks pos).id = IN
        ∨ (nextTokAt toks pos).id = LIKE ∨ (nextTokAt toks pos).id = ILIKE
        ∨ (nextTokAt toks pos).id = SIMILAR then NOT_LA else id
  else if id = GENERATED then
    if (nextTokAt toks pos).id = ALWAYS then GENERATED_ALWAYS
    else if (nextTokAt toks pos).id = BY then GENERATED_BY_DEFAULT
    else id
  else if id = WITH then
    if (nextTokAt toks pos).id = TIME ∨ (nextTokAt toks pos).id = ORDINALITY
        ∨ (nextTokAt toks pos).id = BUCKET_COUNT then WITH_LA else id
  else if id = NULLS then
    if (nextTokAt toks pos).id = FIRST ∨ (nextTokAt toks pos).id = LAST then NULLS_LA else id
  else if id = RESET then
    if (nextTokAt toks pos).id = ALL then RESET_ALL else id
  else if id = ROLE then
    if (nextTokAt toks pos).id = ALL then ROLE_ALL else id
  else if id = USER then
    if (nextTokAt toks pos).id = ALL then USER_ALL else id
  else if id = ON then
    if (nextTokAt toks pos).id = DELETE then ON_LA
    else if (nextTokAt toks pos).id = UPDATE then
      if (secondTokAt toks pos).id = NO ∨ (secondTokAt toks pos).id = RESTRICT
          ∨ (secondTokAt toks pos).id = CASCADE ∨ (secondTokAt toks pos).id = SET then ON_LA
      else id
    else id
  else if id = TENANT then
    if (nextTokAt toks pos).id = ALL then TENANT_ALL else id
  else if id = CLUSTER then
    if (nextTokAt toks pos).id = ALL then CLUSTER_ALL else id
  else if id = SET then
    if (nextTokAt toks pos).id = TRACING then
      -- Do not use the lookahead rule for `SET tracing.custom ...`
      if (secondTokAt toks pos).str ≠ "." then SET_TRACING else id
    else if (nextTokAt toks pos).id = SESSION then
      if (secondTokAt toks pos).id = TRACING then
        -- Do not use the lookahead rule for `SET SESSION tracing.custom ...`
        if (thirdTokAt toks pos).str ≠ "." then SET_TRACING else id
      else id
    else id
  else id

/-- The whole post-processing `switch lval.id` of `Lex`: the id the in-flight
token (fetched at `pos`) is retagged to. -/
def rewriteId (toks : List sqlSymType) (pos : Nat) : Int :=
  if (tokenAt toks pos).id = NOTHING then
    if 0 < pos ∧ prevIdAt toks pos = RETURNING then NOTHING_AFTER_RETURNING
    else (tokenAt toks pos).id
  else if (tokenAt toks pos).id = INDEX then
    indexRewrite toks pos
  else if (tokenAt toks pos).id = NOT ∨ (tokenAt toks pos).id = WITH
      ∨ (tokenAt toks pos).id = AS ∨ (tokenAt toks pos).id = GENERATED
      ∨ (tokenAt toks pos).id = NULLS ∨ (tokenAt toks pos).id = RESET
      ∨ (tokenAt toks pos).id = ROLE ∨ (tokenAt toks pos).id = USER
      ∨ (tokenAt toks pos).id = ON ∨ (tokenAt toks pos).id = TENANT
      ∨ (tokenAt toks pos).id = CLUSTER ∨ (tokenAt toks pos).id = SET then
    lookaheadRewrite toks pos ((tokenAt toks pos).id)
  else
    (tokenAt toks pos).id

/-! ### Error model

`lexer.go` builds its diagnostics with `errors.Newf`, `errors.Wrap[f]`,
`errors.WithSecondaryError`, `errors.WithDetail`, `errors.WithHint[f]` and
`pgerror.WithCandidateCode` (always with the `Syntax` pgcode in this file).
`GoError` records those constructions; `errMsg` is the `Error()` rendering:
wrapping prepends `"msg: "`, the other combinators leave the message alone. -/

inductive GoError where
  | newErr : String → GoError
  | wrap : GoError → String → GoError
  | withSecondary : GoError → GoError → GoError
  | withDetail : GoError → String → GoError
  | withHint : GoError → String → GoError
  | withCandidateCode : GoError → GoError
  deriving Repr, DecidableEq

/-- The `Error()` message of a modelled error. -/
def errMsg : GoError → String
  | GoError.newErr s => s
  | GoError.wrap e s => s ++ ": " ++ errMsg e
  | GoError.withSecondary e _ => errMsg e
  | GoError.withDetail e _ => errMsg e
  | GoError.withHint e _ => errMsg e
  | GoError.withCandidateCode e => errMsg e

/-- The secondary error attached by `errors.WithSecondaryError`, looked up
through detail/hint/code wrappers: `some` exactly for the lexical-error shape
built by `PopulateErrorDetails`, `none` for the syntactic shape. -/
def lexicalChained : GoError → Option GoError
  | GoError.withDetail e _ => lexicalChained e
  | GoError.withHint e _ => lexicalChained e
  | GoError.withCandidateCode e => lexicalChained e
  | GoError.withSecondary _ c => some c
  | _ => none

/-! ### Lexer state and operations -/

/-- The fields of the Go `lexer` struct used by the studied operations
(`in`, `tokens`, `lastPos`, `numPlaceholders`, `lastError`; the Go field `in`
is named `input` here since `in` is reserved in Lean). -/
structure LexerState where
  input : String
  tokens : List sqlSymType
  lastPos : Int
  numPlaceholders : Nat
  lastError : Option GoError
  deriving Repr

/-- `init`: fresh state for one parse attempt (`lastPos = -1`,
`numPlaceholders = 0`, no pending error). -/
def initLexer (sql : String) (toks : List sqlSymType) : LexerState :=
  ⟨sql, toks, -1, 0, none⟩

/-- `Lex`: advance `lastPos`, return the new state, the token written to
`*lval` (the synthetic EOF token past the end of the array), and the `int`
return value (`int(lval.id)`). -/
def LexerState.Lex (l : LexerState) : LexerState × sqlSymType × Int :=
  let l' : LexerState := { l with lastPos := l.lastPos + 1 }
  if (l.tokens.length : Int) ≤ l.lastPos + 1 then
    (l', ⟨0, (l.input.length : Int), "EOF"⟩, 0)
  else
    let pos : Nat := (l.lastPos + 1).toNat
    let lval : sqlSymType :=
      ⟨rewriteId l.tokens pos, (tokenAt l.tokens pos).pos, (tokenAt l.tokens pos).str⟩
    (l', lval, lval.id)

/-- `lastToken`: the zero value before the first `Lex` call, the synthetic
EOF token past the end, otherwise `tokens[lastPos]`. -/
def lastToken (l : LexerState) : sqlSymType :=
  if l.lastPos < 0 then zeroTok
  else if (l.tokens.length : Int) ≤ l.lastPos then ⟨0, (l.input.length : Int), "EOF"⟩
  else tokenAt l.tokens l.lastPos.toNat

/-- `UpdateNumPlaceholders`: raise `numPlaceholders` to `p.Idx + 1` when that
is larger (`p.Idx` is the zero-based placeholder index). -/
def UpdateNumPlaceholders (l : LexerState) (pIdx : Nat) : LexerState :=
  if l.numPlaceholders < pIdx + 1 then { l with numPlaceholders := pIdx + 1 } else l

/-! ### Diagnostic context builder -/

/-- `strings.Contains(s, sub)` (byte strings modelled as character lists). -/
def goContains (s sub : String) : Bool := decide (sub.data <:+: s.data)

/-- `strings.IndexByte` over a character list: index of the first occurrence
of `c`, `none` when absent (Go returns -1). -/
def indexOfChar : List Char → Char → Option Nat
  | [], _ => none
  | a :: as, c => if a = c then some 0 else (indexOfChar as c).map (· + 1)

/-- `strings.LastIndexByte` over a character list: index of the last
occurrence of `c`, `none` when absent (Go returns -1). -/
def lastIndexOfChar : List Char → Char → Option Nat
  | [], _ => none
  | a :: as, c =>
    match lastIndexOfChar as c with
    | some k => some (k + 1)
    | none => if a = c then some 0 else none

/-- The `i` of `PopulateErrorDetails`: end of the line containing offset `p`
(`strings.IndexByte(lIn[p:], '\n')`, shifted by `p`; the whole length when
there is no later newline). -/
def lineEnd (lIn : List Char) (p : Nat) : Nat :=
  match indexOfChar (lIn.drop p) '\n' with
  | none => lIn.length
  | some k => k + p

/-- The `j` of `PopulateErrorDetails`: start of the line containing offset `p`
(`strings.LastIndexByte(lIn[:p], '\n') + 1`, with Go's -1 for "not found"
giving 0). -/
def lineStart (lIn : List Char) (p : Nat) : Nat :=
  match lastIndexOfChar (lIn.take p) '\n' with
  | none => 0
  | some k => k + 1

/-- The detail buffer of `PopulateErrorDetails`:
`"source SQL:\n" + lIn[:i] + "\n" + strings.Repeat(" ", p-j) + "^"`. -/
def detailBuf (lIn : List Char) (p : Nat) : List Char :=
  ("source SQL:\n".data ++ lIn.take (lineEnd lIn p)
    ++ ('\n' :: List.replicate (p - lineStart lIn p) ' ')) ++ ['^']

/-- `PopulateErrorDetails(tokID, lastTokStr, lastTokPos, lastErr, lIn)`:
lexical framing when `tokID == ERROR` (new `"lexical error: ..."` message with
`lastErr` as secondary), otherwise wrap with `"syntax error"` (unless already
present in the message) and `"at or near \"...\""`; in both cases attach the
source-line-plus-caret detail. -/
def PopulateErrorDetails (tokID : Int) (lastTokStr : String) (lastTokPos : Int)
    (lastErr : GoError) (lIn : String) : GoError :=
  let retErr : GoError :=
    if tokID = ERROR then
      GoError.withSecondary
        (GoError.withCandidateCode (GoError.newErr ("lexical error: " ++ lastTokStr)))
        lastErr
    else
      let lastErr2 :=
        if goContains (errMsg lastErr) "syntax error" then lastErr
        else GoError.wrap lastErr "syntax error"
      GoError.wrap lastErr2 ("at or near \"" ++ lastTokStr ++ "\"")
  GoError.withDetail retErr (String.mk (detailBuf lIn.data lastTokPos.toNat))

/-- The method `populateErrorDetails` of the lexer: rebuild `lastError` from
the last returned token (kept as-is when no error is pending; all in-code
callers set `lastError` first). -/
def LexerState.populateErrDetails (l : LexerState) : LexerState :=
  { l with lastError := l.lastError.map (fun e =>
      PopulateErrorDetails (lastToken l).id (lastToken l).str (lastToken l).pos e l.input) }

/-- `specialHelpErrorPrefix` of the source: marker the CLI shell requires at
the start of a help payload. -/
def specialHelpMarker : String := "help token in input"

/-- The fields of `HelpMessage` read by `SetHelp` (`Command`, `Function`).

Modelled from the spec: `HelpMessage.String()` (defined outside the shown
files) renders the help body; it is modelled as the extra field `rendered`
carrying that rendered text. -/
structure HelpMessage where
  command : String
  function : String
  rendered : String
  deriving Repr

/-- `SetHelp(msg)`: when the last token is the help sentinel, turn the pending
error (or a fresh `"help request"` error) into the marker-prefixed help
payload with the help body as hint; otherwise attach a `try \h`/`try \hf`
hint without overwriting the pending error. -/
def LexerState.SetHelp (l : LexerState) (msg : HelpMessage) : LexerState :=
  let lastErr : GoError :=
    match l.lastError with
    | none => GoError.withCandidateCode (GoError.newErr "help request")
    | some e => e
  if (lastToken l).id = HELPTOKEN then
    { l with lastError := some (GoError.withHint
        (GoError.wrap lastErr specialHelpMarker) msg.rendered) }
  else
    if msg.command ≠ "" then
      { l with lastError := some (GoError.withHint lastErr ("try \\h " ++ msg.command)) }
    else
      { l with lastError := some (GoError.withHint lastErr ("try \\hf " ++ msg.function)) }

/-! ### Basic lemmas about the token window -/

/-- The synthetic end-of-input token (`identity 0`, offset `n`, text `"EOF"`). -/
def eofTok (n : Int) : sqlSymType := ⟨0, n, "EOF"⟩

theorem tokenAt_append_lt (toks : List sqlSymType) (e : sqlSymType) :
    ∀ k, k < toks.length → tokenAt (toks ++ [e]) k = tokenAt toks k := by
  induction toks with
  | nil => intro k hk; exact absurd hk (by simp)
  | cons t ts ih =>
    intro k hk
    cases k with
    | zero => rfl
    | succ k => exact ih k (by simpa using hk)

theorem tokenAt_append_len (toks : List sqlSymType) (e : sqlSymType) :
    tokenAt (toks ++ [e]) toks.length = e := by
  induction toks with
  | nil => rfl
  | cons t ts ih => exact ih

theorem tokenAt_oob (toks : List sqlSymType) : ∀ k, toks.length ≤ k → tokenAt toks k = zeroTok := by
  induction toks with
  | nil => intro k _; cases k <;> rfl
  | cons t ts ih =>
    intro k hk
    cases k with
    | zero => exact absurd hk (by simp)
    | succ k => exact ih k (by simpa using hk)

theorem prevIdAt_append (toks : List sqlSymType) (e : sqlSymType) (pos : Nat)
    (h : pos < toks.length) : prevIdAt (toks ++ [e]) pos = prevIdAt toks pos := by
  unfold prevIdAt
  by_cases h0 : 0 < pos
  · rw [if_pos h0, if_pos h0, tokenAt_append_lt toks e (pos - 1) (by omega)]
  · rw [if_neg h0, if_neg h0]

theorem pprevIdAt_append (toks : List sqlSymType) (e : sqlSymType) (pos : Nat)
    (h : pos < toks.length) : pprevIdAt (toks ++ [e]) pos = pprevIdAt toks pos := by
  unfold pprevIdAt
  by_cases h0 : 1 < pos
  · rw [if_pos h0, if_pos h0, tokenAt_append_lt toks e (pos - 2) (by omega)]
  · rw [if_neg h0, if_neg h0]

theorem nextIdAt_append (toks : List sqlSymType) (n : Int) (pos : Nat)
    (h : pos < toks.length) : nextIdAt (toks ++ [eofTok n]) pos = nextIdAt toks pos := by
  unfold nextIdAt
  by_cases h1 : pos + 1 < toks.length
  · rw [if_pos h1, if_pos (by simp; omega), tokenAt_append_lt toks _ (pos + 1) h1]
  · have he : pos + 1 = toks.length := by omega
    rw [if_neg h1, if_pos (by simp; omega), he, tokenAt_append_len]
    rfl

theorem secondIdAt_append (toks : List sqlSymType) (n : Int) (pos : Nat)
    (h : pos < toks.length) : secondIdAt (toks ++ [eofTok n]) pos = secondIdAt toks pos := by
  unfold secondIdAt
  by_cases h1 : pos + 2 < toks.length
  · rw [if_pos h1, if_pos (by simp; omega), tokenAt_append_lt toks _ (pos + 2) h1]
  · by_cases h2 : pos + 2 = toks.length
    · rw [if_neg h1, if_pos (by simp; omega), h2, tokenAt_append_len]
      rfl
    · rw [if_neg h1, if_neg (by simp; omega)]

theorem nextTokAt_append_id (toks : List sqlSymType) (n : Int) (pos : Nat)
    (h : pos < toks.length) :
    (nextTokAt (toks ++ [eofTok n]) pos).id = (nextTokAt toks pos).id := by
  unfold nextTokAt
  by_cases h1 : pos + 1 < toks.length
  · rw [if_pos h1, if_pos (by simp; omega), tokenAt_append_lt toks _ (pos + 1) h1]
  · have he : pos + 1 = toks.length := by omega
    rw [if_neg h1, if_pos (by simp; omega), he, tokenAt_append_len]
    rfl

theorem secondTokAt_append_id (toks : List sqlSymType) (n : Int) (pos : Nat)
    (h : pos < toks.length) :
    (secondTokAt (toks ++ [eofTok n]) pos).id = (secondTokAt toks pos).id := by
  unfold secondTokAt
  by_cases h1 : pos + 2 < toks.length
  · rw [if_pos h1, if_pos (by simp; omega), tokenAt_append_lt toks _ (pos + 2) h1]
  · by_cases h2 : pos + 2 = toks.length
    · rw [if_neg h1, if_pos (by simp; omega), h2, tokenAt_append_len]
      rfl
    · rw [if_neg h1, if_neg (by simp; omega)]

theorem thirdTokAt_append_id (toks : List sqlSymType) (n : Int) (pos : Nat)
    (h : pos < toks.length) :
    (thirdTokAt (toks ++ [eofTok n]) pos).id = (thirdTokAt toks pos).id := by
  unfold thirdTokAt
  by_cases h1 : pos + 3 < toks.length
  · rw [if_pos h1, if_pos (by simp; omega), tokenAt_append_lt toks _ (pos + 3) h1]
  · by_cases h2 : pos + 3 = toks.length
    · rw [if_neg h1, if_pos (by simp; omega), h2, tokenAt_append_len]
      rfl
    · rw [if_neg h1, if_neg (by simp; omega)]

theorem secondTokAt_append_strDot (toks : List sqlSymType) (n : Int) (pos : Nat)
    (h : pos < toks.length) :
    ((secondTokAt (toks ++ [eofTok n]) pos).str = ".") ↔ ((secondTokAt toks pos).str = ".") := by
  unfold secondTokAt
  by_cases h1 : pos + 2 < toks.length
  · rw [if_pos h1, if_pos (by simp; omega), tokenAt_append_lt toks _ (pos + 2) h1]
  · by_cases h2 : pos + 2 = toks.length
    · rw [if_neg h1, if_pos (by simp; omega), h2, tokenAt_append_len]
      show ("EOF" = ".") ↔ ("" = ".")
      decide
    · rw [if_neg h1, if_neg (by simp; omega)]

theorem thirdTokAt_append_strDot (toks : List sqlSymType) (n : Int) (pos : Nat)
    (h : pos < toks.length) :
    ((thirdTokAt (toks ++ [eofTok n]) pos).str = ".") ↔ ((thirdTokAt toks pos).str = ".") := by
  unfold thirdTokAt
  by_cases h1 : pos + 3 < toks.length
  · rw [if_pos h1, if_pos (by simp; omega), tokenAt_append_lt toks _ (pos + 3) h1]
  · by_cases h2 : pos + 3 = toks.length
    · rw [if_neg h1, if_pos (by simp; omega), h2, tokenAt_append_len]
      show ("EOF" = ".") ↔ ("" = ".")
      decide
    · rw [if_neg h1, if_neg (by simp; omega)]

theorem atScanLoop_append (toks : List sqlSymType) (n : Int) (pos : Nat) :
    ∀ fuel i, atScanLoop (toks ++ [eofTok n]) pos fuel i = atScanLoop toks pos fuel i := by
  intro fuel
  induction fuel with
  | zero => intro i; rfl
  | succ fuel ih =>
    intro i
    show (if i < (toks ++ [eofTok n]).length ∧ i < pos + 7 then _ else false)
      = (if i < toks.length ∧ i < pos + 7 then _ else false)
    by_cases hb : i < toks.length ∧ i < pos + 7
    · rw [if_pos (⟨by simp; omega, hb.2⟩ : i < (toks ++ [eofTok n]).length ∧ i < pos + 7),
        if_pos hb, tokenAt_append_lt toks _ i hb.1, ih (i + 1)]
    · by_cases h7 : i < pos + 7
      · have hlen : toks.length ≤ i := by omega
        rw [if_neg hb]
        by_cases he : i = toks.length
        · rw [if_pos (⟨by simp; omega, h7⟩ : i < (toks ++ [eofTok n]).length ∧ i < pos + 7),
            he, tokenAt_append_len]
          have hid : (eofTok n).id = 0 := rfl
          rw [hid, if_pos (by decide : (0 : Int) < 255 ∧ (0 : Int) ≠ 46 ∧ (0 : Int) ≠ 64)]
        · rw [if_neg (by intro hc; simp at hc; omega :
              ¬(i < (toks ++ [eofTok n]).length ∧ i < pos + 7))]
      · rw [if_neg (by intro hc; omega), if_neg (by intro hc; omega)]

/-- Specification of the forward scan: with enough fuel it succeeds exactly
when some `'@'` token sits within the six-token window, beyond the position
directly after `INDEX`, with every token before it of id `≥ 255` or `'.'`. -/
theorem atScanLoop_true_iff (toks : List sqlSymType) (pos : Nat) :
    ∀ fuel i, pos + 7 - i ≤ fuel → (atScanLoop toks pos fuel i = true ↔
      ∃ k, i ≤ k ∧ k < toks.length ∧ k < pos + 7 ∧ (tokenAt toks k).id = 64 ∧ k ≠ pos + 1 ∧
        ∀ m, i ≤ m → m < k → 255 ≤ (tokenAt toks m).id ∨ (tokenAt toks m).id = 46) := by
  intro fuel
  induction fuel with
  | zero =>
    intro i hi
    constructor
    · intro hs
      exact absurd hs (by simp [atScanLoop])
    · rintro ⟨k, hik, _, hk7, _⟩
      omega
  | succ fuel ih =>
    intro i hi
    show (if i < toks.length ∧ i < pos + 7 then _ else false) = true ↔ _
    by_cases hb : i < toks.length ∧ i < pos + 7
    · rw [if_pos hb]
      by_cases h1 : (tokenAt toks i).id < 255 ∧ (tokenAt toks i).id ≠ 46 ∧ (tokenAt toks i).id ≠ 64
      · rw [if_pos h1]
        constructor
        · intro hs
          exact absurd hs (by simp)
        · rintro ⟨k, hik, hklen, hk7, hk64, hkne, hall⟩
          exfalso
          rcases Nat.eq_or_lt_of_le hik with he | hlt
          · subst he
            exact h1.2.2 hk64
          · rcases hall i (Nat.le_refl i) hlt with hge | h46
            · exact absurd h1.1 (by omega)
            · exact h1.2.1 h46
      · rw [if_neg h1]
        by_cases h2 : (tokenAt toks i).id = 64
        · rw [if_pos h2]
          by_cases h3 : i = pos + 1
          · rw [if_pos h3]
            constructor
            · intro hs
              exact absurd hs (by simp)
            · rintro ⟨k, hik, hklen, hk7, hk64, hkne, hall⟩
              exfalso
              rcases Nat.eq_or_lt_of_le hik with he | hlt
              · subst he
                exact hkne h3
              · rcases hall i (Nat.le_refl i) hlt with hge | h46
                · omega
                · omega
          · rw [if_neg h3]
            constructor
            · intro _
              exact ⟨i, Nat.le_refl i, hb.1, hb.2, h2, h3, fun m hm1 hm2 => by omega⟩
            · intro _
              rfl
        · rw [if_neg h2]
          have hcur : 255 ≤ (tokenAt toks i).id ∨ (tokenAt toks i).id = 46 := by
            by_contra hc
            push_neg at hc
            exact h1 ⟨by omega, hc.2, h2⟩
          have hrec := ih (i + 1) (by omega)
          rw [hrec]
          constructor
          · rintro ⟨k, hik, hklen, hk7, hk64, hkne, hall⟩
            refine ⟨k, by omega, hklen, hk7, hk64, hkne, ?_⟩
            intro m hm1 hm2
            rcases Nat.eq_or_lt_of_le hm1 with he | hlt
            · subst he
              exact hcur
            · exact hall m hlt hm2
          · rintro ⟨k, hik, hklen, hk7, hk64, hkne, hall⟩
            have hki : i < k := by
              rcases Nat.eq_or_lt_of_le hik with he | hlt
              · exfalso
                subst he
                exact h2 hk64
              · exact hlt
            exact ⟨k, by omega, hklen, hk7, hk64, hkne, fun m hm1 hm2 => hall m (by omega) hm2⟩
    · rw [if_neg hb]
      constructor
      · intro hs
        exact absurd hs (by simp)
      · rintro ⟨k, hik, hklen, hk7, _⟩
        exact absurd (⟨by omega, by omega⟩ : i < toks.length ∧ i < pos + 7) hb

theorem rewriteId_of_index (toks : List sqlSymType) (pos : Nat)
    (h : (tokenAt toks pos).id = INDEX) : rewriteId toks pos = indexRewrite toks pos := by
  unfold rewriteId
  rw [h, if_neg (by decide : ¬(INDEX = NOTHING)), if_pos rfl]

theorem rewriteId_of_set (toks : List sqlSymType) (pos : Nat)
    (h : (tokenAt toks pos).id = SET) : rewriteId toks pos = lookaheadRewrite toks pos SET := by
  unfold rewriteId
  rw [h, if_neg (by decide : ¬(SET = NOTHING)), if_neg (by decide : ¬(SET = INDEX)),
    if_pos (by decide : SET = NOT ∨ SET = WITH ∨ SET = AS ∨ SET = GENERATED ∨ SET = NULLS
      ∨ SET = RESET ∨ SET = ROLE ∨ SET = USER ∨ SET = ON ∨ SET = TENANT ∨ SET = CLUSTER
      ∨ SET = SET)]

theorem lookaheadRewrite_append (toks : List sqlSymType) (n : Int) (pos : Nat)
    (h : pos < toks.length) (id : Int) :
    lookaheadRewrite (toks ++ [eofTok n]) pos id = lookaheadRewrite toks pos id := by
  unfold lookaheadRewrite
  rw [nextTokAt_append_id toks n pos h, secondTokAt_append_id toks n pos h]
  simp only [ne_eq, secondTokAt_append_strDot toks n pos h, thirdTokAt_append_strDot toks n pos h]

theorem indexRewrite_append (toks : List sqlSymType) (n : Int) (pos : Nat)
    (h : pos < toks.length) :
    indexRewrite (toks ++ [eofTok n]) pos = indexRewrite toks pos := by
  unfold indexRewrite
  rw [prevIdAt_append toks (eofTok n) pos h, pprevIdAt_append toks (eofTok n) pos h,
    nextIdAt_append toks n pos h, secondIdAt_append toks n pos h,
    atScanLoop_append toks n pos 6 (pos + 1)]

theorem rewriteId_append (toks : List sqlSymType) (n : Int) (pos : Nat)
    (h : pos < toks.length) :
    rewriteId (toks ++ [eofTok n]) pos = rewriteId toks pos := by
  unfold rewriteId
  rw [tokenAt_append_lt toks _ pos h, prevIdAt_append toks (eofTok n) pos h,
    indexRewrite_append toks n pos h, lookaheadRewrite_append toks n pos h]

/-- The synthetic end-of-input id 0 matches no trigger of the rule engine:
the token right past the end of the array is never retagged. -/
theorem rewriteId_eof (toks : List sqlSymType) (n : Int) :
    rewriteId (toks ++ [eofTok n]) toks.length = 0 := by
  unfold rewriteId
  rw [tokenAt_append_len toks (eofTok n)]
  have hid : (eofTok n).id = 0 := rfl
  rw [hid, if_neg (by decide : ¬((0 : Int) = NOTHING)), if_neg (by decide : ¬((0 : Int) = INDEX)),
    if_neg (by decide : ¬((0 : Int) = NOT ∨ (0 : Int) = WITH ∨ (0 : Int) = AS
      ∨ (0 : Int) = GENERATED ∨ (0 : Int) = NULLS ∨ (0 : Int) = RESET ∨ (0 : Int) = ROLE
      ∨ (0 : Int) = USER ∨ (0 : Int) = ON ∨ (0 : Int) = TENANT ∨ (0 : Int) = CLUSTER
      ∨ (0 : Int) = SET))]

/-- `Lex` on an in-range position: the new state advances `lastPos`, the token
handed to the parser carries the retagged id and the original text/offset,
and the return value is that id. -/
theorem Lex_inrange (l : LexerState) (pos : Nat) (hpos : l.lastPos + 1 = (pos : Int))
    (hlt : pos < l.tokens.length) :
    l.Lex = ({ l with lastPos := l.lastPos + 1 },
      (⟨rewriteId l.tokens pos, (tokenAt l.tokens pos).pos, (tokenAt l.tokens pos).str⟩ :
        sqlSymType),
      rewriteId l.tokens pos) := by
  unfold LexerState.Lex
  rw [if_neg (by omega : ¬((l.tokens.length : Int) ≤ l.lastPos + 1))]
  have hn : (l.lastPos + 1).toNat = pos := by omega
  rw [hn]

/-- The id of the token returned by an in-range `Lex` call is `rewriteId`. -/
theorem Lex_id (l : LexerState) (pos : Nat) (hpos : l.lastPos + 1 = (pos : Int))
    (hlt : pos < l.tokens.length) : l.Lex.2.1.id = rewriteId l.tokens pos := by
  rw [Lex_inrange l pos hpos hlt]

/-- `Lex` past the end of the token array: synthetic EOF token and return 0. -/
theorem Lex_eof (l : LexerState) (hge : (l.tokens.length : Int) ≤ l.lastPos + 1) :
    l.Lex = ({ l with lastPos := l.lastPos + 1 },
      (⟨0, (l.input.length : Int), "EOF"⟩ : sqlSymType), 0) := by
  unfold LexerState.Lex
  rw [if_pos hge]

/-! ### Lemmas about the detail-block index computations -/

theorem goContains_iff (s sub : String) : goContains s sub = true ↔ sub.data <:+: s.data := by
  unfold goContains
  exact decide_eq_true_iff

theorem indexOfChar_none (c : Char) :
    ∀ s : List Char, indexOfChar s c = none → ∀ m, s.get? m ≠ some c := by
  intro s
  induction s with
  | nil =>
    intro _ m
    cases m <;> simp
  | cons a as ih =>
    intro h m
    unfold indexOfChar at h
    by_cases hac : a = c
    · rw [if_pos hac] at h
      exact absurd h (by simp)
    · rw [if_neg hac] at h
      have hr : indexOfChar as c = none := by
        cases hx : indexOfChar as c with
        | none => rfl
        | some k => rw [hx] at h; exact absurd h (by simp)
      cases m with
      | zero =>
        intro hc
        exact hac (by simpa using hc)
      | succ m => exact ih hr m

theorem indexOfChar_some (c : Char) :
    ∀ (s : List Char) (k : Nat), indexOfChar s c = some k →
      s.get? k = some c ∧ ∀ m, m < k → s.get? m ≠ some c := by
  intro s
  induction s with
  | nil =>
    intro k h
    exact absurd h (by simp [indexOfChar])
  | cons a as ih =>
    intro k h
    unfold indexOfChar at h
    by_cases hac : a = c
    · rw [if_pos hac] at h
      have hk : k = 0 := by
        cases h
        rfl
      subst hk
      exact ⟨by simpa using hac, fun m hm => absurd hm (by omega)⟩
    · rw [if_neg hac] at h
      rcases Option.map_eq_some'.mp h with ⟨k', hk', hkk⟩
      subst hkk
      rcases ih k' hk' with ⟨hget, hbefore⟩
      refine ⟨by simpa using hget, ?_⟩
      intro m hm
      cases m with
      | zero =>
        intro hc
        exact hac (by simpa using hc)
      | succ m => exact hbefore m (by omega)

theorem lastIndexOfChar_none (c : Char) :
    ∀ s : List Char, lastIndexOfChar s c = none → ∀ m, s.get? m ≠ some c := by
  intro s
  induction s with
  | nil =>
    intro _ m
    cases m <;> simp
  | cons a as ih =>
    intro h m
    unfold lastIndexOfChar at h
    cases hx : lastIndexOfChar as c with
    | some k =>
      rw [hx] at h
      exact absurd h (by simp)
    | none =>
      rw [hx] at h
      have hac : ¬(a = c) := by
        by_cases hc : a = c
        · rw [if_pos hc] at h
          exact absurd h (by simp)
        · exact hc
      cases m with
      | zero =>
        intro hc
        exact hac (by simpa using hc)
      | succ m => exact ih hx m

theorem lastIndexOfChar_some (c : Char) :
    ∀ (s : List Char) (k : Nat), lastIndexOfChar s c = some k →
      s.get? k = some c ∧ ∀ m, k < m → s.get? m ≠ some c := by
  intro s
  induction s with
  | nil =>
    intro k h
    exact absurd h (by simp [lastIndexOfChar])
  | cons a as ih =>
    intro k h
    unfold lastIndexOfChar at h
    cases hx : lastIndexOfChar as c with
    | some k' =>
      rw [hx] at h
      have hk : k = k' + 1 := by
        cases h
        rfl
      subst hk
      rcases ih k' hx with ⟨hget, hafter⟩
      refine ⟨by simpa using hget, ?_⟩
      intro m hm
      cases m with
      | zero => exact absurd hm (by omega)
      | succ m => exact hafter m (by omega)
    | none =>
      rw [hx] at h
      by_cases hac : a = c
      · rw [if_pos hac] at h
        have hk : k = 0 := by
          cases h
          rfl
        subst hk
        refine ⟨by simpa using hac, ?_⟩
        intro m hm
        cases m with
        | zero => exact absurd hm (by omega)
        | succ m => exact lastIndexOfChar_none c as hx m
      · rw [if_neg hac] at h
        exact absurd h (by simp)

/-! ### Lemmas about the placeholder counter -/

theorem updateNumPlaceholders_eq_max (l : LexerState) (i : Nat) :
    (UpdateNumPlaceholders l i).numPlaceholders = max l.numPlaceholders (i + 1) := by
  unfold UpdateNumPlaceholders
  by_cases h : l.numPlaceholders < i + 1
  · rw [if_pos h]
    show i + 1 = _
    omega
  · rw [if_neg h]
    omega

theorem foldl_updateNumPlaceholders (idxs : List Nat) : ∀ l : LexerState,
    (idxs.foldl UpdateNumPlaceholders l).numPlaceholders
      = max l.numPlaceholders (idxs.foldr (fun i a => max (i + 1) a) 0) := by
  induction idxs with
  | nil =>
    intro l
    show l.numPlaceholders = max l.numPlaceholders 0
    omega
  | cons i rest ih =>
    intro l
    show (rest.foldl UpdateNumPlaceholders (UpdateNumPlaceholders l i)).numPlaceholders = _
    rw [ih (UpdateNumPlaceholders l i), updateNumPlaceholders_eq_max]
    show _ = max l.numPlaceholders (max (i + 1) (rest.foldr (fun i a => max (i + 1) a) 0))
    omega

theorem foldr_max_shift (idxs : List Nat) :
    idxs.foldr (fun i a => max (i + 1) a) 0
      = if idxs = [] then 0 else 1 + idxs.foldr max 0 := by
  induction idxs with
  | nil => rfl
  | cons i rest ih =>
    show max (i + 1) (rest.foldr (fun i a => max (i + 1) a) 0) = _
    rw [ih, if_neg (by simp : ¬(i :: rest = []))]
    show _ = 1 + max i (rest.foldr max 0)
    by_cases h : rest = []
    · rw [if_pos h]
      subst h
      show max (i + 1) 0 = 1 + max i 0
      omega
    · rw [if_neg h]
      omega

/-! ### The claims -/

/-- Claim C8: after initialization, for every sequence of
`UpdateNumPlaceholders` (`recordPlaceholder`) calls with zero-based indices,
the placeholder counter equals one plus the maximum index recorded so far
(zero if none); each call sets it to `max(current, index+1)`, so it never
decreases; and recording indices 0 and 2 yields a final count of 3. -/
theorem update_num_placeholders_max (sql : String) (toks : List sqlSymType) (idxs : List Nat) :
    ((idxs.foldl UpdateNumPlaceholders (initLexer sql toks)).numPlaceholders
        = if idxs = [] then 0 else 1 + idxs.foldr max 0)
    ∧ (∀ (l : LexerState) (i : Nat),
        (UpdateNumPlaceholders l i).numPlaceholders = max l.numPlaceholders (i + 1))
    ∧ (∀ (l : LexerState) (i : Nat),
        l.numPlaceholders ≤ (UpdateNumPlaceholders l i).numPlaceholders)
    ∧ (([0, 2] : List Nat).foldl UpdateNumPlaceholders (initLexer sql toks)).numPlaceholders = 3 := by
  refine ⟨?_, fun l i => updateNumPlaceholders_eq_max l i, ?_, rfl⟩
  · rw [foldl_updateNumPlaceholders, foldr_max_shift]
    show max 0 _ = _
    exact Nat.zero_max _
  · intro l i
    rw [updateNumPlaceholders_eq_max]
    omega

/-- Claim C7: for every in-range call to `Lex`, the returned token keeps the
text and source offset of the token at the same position of the backing
sequence (only the identity may change), and the backing token sequence (and
source text) of the state are unchanged. -/
theorem lex_preserves_str_pos_tokens (l : LexerState) (pos : Nat)
    (hpos : l.lastPos + 1 = (pos : Int)) (hlt : pos < l.tokens.length) :
    l.Lex.1.tokens = l.tokens
    ∧ l.Lex.1.input = l.input
    ∧ l.Lex.2.1.str = (tokenAt l.tokens pos).str
    ∧ l.Lex.2.1.pos = (tokenAt l.tokens pos).pos := by
  rw [Lex_inrange l pos hpos hlt]
  exact ⟨rfl, rfl, rfl, rfl⟩

theorem lex_preserves_str_pos_tokens_witness :
    (initLexer "x" [⟨IDENT, 0, "x"⟩]).Lex.1.tokens = [⟨IDENT, 0, "x"⟩]
    ∧ (initLexer "x" [⟨IDENT, 0, "x"⟩]).Lex.1.input = "x"
    ∧ (initLexer "x" [⟨IDENT, 0, "x"⟩]).Lex.2.1.str = (tokenAt [⟨IDENT, 0, "x"⟩] 0).str
    ∧ (initLexer "x" [⟨IDENT, 0, "x"⟩]).Lex.2.1.pos = (tokenAt [⟨IDENT, 0, "x"⟩] 0).pos :=
  lex_preserves_str_pos_tokens (initLexer "x" [⟨IDENT, 0, "x"⟩]) 0 (by decide) (by decide)

/-- Claim C6: when the advanced position is past the end of the token array,
`Lex` writes the synthetic end-of-input token (identity 0, offset = length of
the source text, text `"EOF"`) and returns 0; `lastToken` then returns the
same synthetic token; and the synthetic identity 0 is inert for the rule
engine: materializing the EOF token at the end of the array changes no
rewrite decision at any in-range position, and the EOF token itself is never
retagged. -/
theorem lex_eof_synthetic_token (l : LexerState)
    (h0 : -1 ≤ l.lastPos) (hge : (l.tokens.length : Int) ≤ l.lastPos + 1) :
    l.Lex.2.1 = ⟨0, (l.input.length : Int), "EOF"⟩
    ∧ l.Lex.2.2 = 0
    ∧ lastToken l.Lex.1 = ⟨0, (l.input.length : Int), "EOF"⟩
    ∧ (∀ (toks : List sqlSymType) (n : Int) (pos : Nat), pos < toks.length →
        rewriteId (toks ++ [eofTok n]) pos = rewriteId toks pos)
    ∧ (∀ (toks : List sqlSymType) (n : Int), rewriteId (toks ++ [eofTok n]) toks.length = 0) := by
  have hl := Lex_eof l hge
  refine ⟨by rw [hl], by rw [hl], ?_,
    fun toks n pos h => rewriteId_append toks n pos h,
    fun toks n => rewriteId_eof toks n⟩
  rw [hl]
  show lastToken { l with lastPos := l.lastPos + 1 } = _
  unfold lastToken
  rw [if_neg (show ¬(({ l with lastPos := l.lastPos + 1 } : LexerState).lastPos < 0) by
      show ¬(l.lastPos + 1 < 0)
      omega),
    if_pos (show ((({ l with lastPos := l.lastPos + 1 } : LexerState).tokens.length : Int)
        ≤ ({ l with lastPos := l.lastPos + 1 } : LexerState).lastPos) from hge)]

theorem lex_eof_synthetic_token_witness :
    (initLexer "ab" []).Lex.2.1 = ⟨0, ((initLexer "ab" []).input.length : Int), "EOF"⟩
    ∧ (initLexer "ab" []).Lex.2.2 = 0
    ∧ lastToken (initLexer "ab" []).Lex.1 = ⟨0, ((initLexer "ab" []).input.length : Int), "EOF"⟩
    ∧ rewriteId ([⟨IDENT, 0, "x"⟩] ++ [eofTok 1]) 0 = rewriteId [⟨IDENT, 0, "x"⟩] 0
    ∧ rewriteId ([⟨IDENT, 0, "x"⟩] ++ [eofTok 1]) 1 = 0 := by
  have h := lex_eof_synthetic_token (initLexer "ab" []) (by decide) (by decide)
  exact ⟨h.1, h.2.1, h.2.2.1, h.2.2.2.1 [⟨IDENT, 0, "x"⟩] 1 0 (by decide),
    h.2.2.2.2 [⟨IDENT, 0, "x"⟩] 1⟩


/-- Claim C10: when `lastToken` is consulted before the first token was
returned (`lastPos < 0`), it yields the zero-valued token (identity 0, offset
0, empty text), not the synthetic EOF token; a pending error populated in
that state is therefore framed as syntactic (identity 0 is not the lexer
error sentinel, so nothing is chained as a secondary cause), reads
`at or near ""`, and the caret line of the detail block carries zero leading
spaces (caret at offset 0). -/
theorem last_token_before_start (l : LexerState) (e : GoError)
    (hneg : l.lastPos < 0) (herr : l.lastError = some e) :
    lastToken l = zeroTok
    ∧ (0 : Int) ≠ ERROR
    ∧ l.populateErrDetails.lastError = some (PopulateErrorDetails 0 "" 0 e l.input)
    ∧ lexicalChained (PopulateErrorDetails 0 "" 0 e l.input) = none
    ∧ errMsg (PopulateErrorDetails 0 "" 0 e l.input)
        = ("at or near \"" ++ "" ++ "\"") ++ ": "
          ++ (if goContains (errMsg e) "syntax error" then errMsg e
              else "syntax error" ++ ": " ++ errMsg e)
    ∧ detailBuf l.input.data 0
        = ("source SQL:\n".data ++ l.input.data.take (lineEnd l.input.data 0)
            ++ ('\n' :: List.replicate 0 ' ')) ++ ['^'] := by
  have hlast : lastToken l = zeroTok := by
    unfold lastToken
    rw [if_pos hneg]
  refine ⟨hlast, by decide, ?_, ?_, ?_, rfl⟩
  · unfold LexerState.populateErrDetails
    rw [herr, hlast]
    rfl
  · unfold PopulateErrorDetails
    rw [if_neg (by decide : ¬((0 : Int) = ERROR))]
    by_cases hc : goContains (errMsg e) "syntax error"
    · rw [if_pos hc]
      rfl
    · rw [if_neg hc]
      rfl
  · unfold PopulateErrorDetails
    rw [if_neg (by decide : ¬((0 : Int) = ERROR))]
    by_cases hc : goContains (errMsg e) "syntax error"
    · rw [if_pos hc, if_pos hc]
      rfl
    · rw [if_neg hc, if_neg hc]
      rfl

theorem last_token_before_start_witness :
    lastToken { initLexer "ab" [⟨IDENT, 0, "ab"⟩] with lastError := some (GoError.newErr "m") }
        = zeroTok
    ∧ ({ initLexer "ab" [⟨IDENT, 0, "ab"⟩] with
          lastError := some (GoError.newErr "m") } : LexerState).populateErrDetails.lastError
        = some (PopulateErrorDetails 0 "" 0 (GoError.newErr "m") "ab")
    ∧ errMsg (PopulateErrorDetails 0 "" 0 (GoError.newErr "m") "ab")
        = ("at or near \"" ++ "" ++ "\"") ++ ": "
          ++ (if goContains (errMsg (GoError.newErr "m")) "syntax error"
              then errMsg (GoError.newErr "m")
              else "syntax error" ++ ": " ++ errMsg (GoError.newErr "m")) := by
  have h := last_token_before_start
    { initLexer "ab" [⟨IDENT, 0, "ab"⟩] with lastError := some (GoError.newErr "m") }
    (GoError.newErr "m") (by decide) rfl
  exact ⟨h.1, h.2.2.1, h.2.2.2.2.1⟩

/-- Claim C9: invoked after a parse failure (an error is pending), `SetHelp`
turns the pending error into a help payload beginning with the fixed marker
`"help token in input"` with the help body attached as hint exactly when the
last token is the help sentinel; otherwise it does not overwrite the pending
error but attaches a `try \h <command>` / `try \hf <function>` hint to it. -/
theorem set_help_paths (l : LexerState) (msg : HelpMessage) (e : GoError)
    (herr : l.lastError = some e) :
    ((lastToken l).id = HELPTOKEN →
      (l.SetHelp msg).lastError
          = some (GoError.withHint (GoError.wrap e specialHelpMarker) msg.rendered)
      ∧ ∃ rest, (errMsg (GoError.withHint (GoError.wrap e specialHelpMarker) msg.rendered)).data
          = "help token in input".data ++ rest)
    ∧ ((lastToken l).id ≠ HELPTOKEN →
      (l.SetHelp msg).lastError = some (GoError.withHint e
        (if msg.command ≠ "" then "try \\h " ++ msg.command else "try \\hf " ++ msg.function))) := by
  constructor
  · intro hh
    unfold LexerState.SetHelp
    rw [herr, if_pos hh]
    refine ⟨rfl, ⟨": ".data ++ (errMsg e).data, ?_⟩⟩
    show ((specialHelpMarker ++ ": ") ++ errMsg e).data = _
    simp [specialHelpMarker, List.append_assoc]
  · intro hh
    unfold LexerState.SetHelp
    rw [herr, if_neg hh]
    by_cases hc : msg.command ≠ ""
    · rw [if_pos hc, if_pos hc]
    · rw [if_neg hc, if_neg hc]

theorem set_help_paths_witness :
    ((⟨"?", [⟨HELPTOKEN, 0, "?"⟩], 0, 0, some (GoError.newErr "boo")⟩ : LexerState).SetHelp
        ⟨"SHOW", "", "SHOW help body"⟩).lastError
      = some (GoError.withHint (GoError.wrap (GoError.newErr "boo") specialHelpMarker)
          "SHOW help body")
    ∧ ((⟨"x", [⟨IDENT, 0, "x"⟩], 0, 0, some (GoError.newErr "boo")⟩ : LexerState).SetHelp
        ⟨"SHOW", "", "SHOW help body"⟩).lastError
      = some (GoError.withHint (GoError.newErr "boo")
          (if ("SHOW" : String) ≠ "" then "try \\h " ++ "SHOW" else "try \\hf " ++ "")) := by
  have h1 := (set_help_paths ⟨"?", [⟨HELPTOKEN, 0, "?"⟩], 0, 0, some (GoError.newErr "boo")⟩
      ⟨"SHOW", "", "SHOW help body"⟩ (GoError.newErr "boo") rfl).1 (by decide)
  have h2 := (set_help_paths ⟨"x", [⟨IDENT, 0, "x"⟩], 0, 0, some (GoError.newErr "boo")⟩
      ⟨"SHOW", "", "SHOW help body"⟩ (GoError.newErr "boo") rfl).2 (by decide)
  exact ⟨h1.1, h2⟩

/-- Claim C4: the diagnostic builder frames the failure as lexical exactly
when the last token's identity is the lexer-error sentinel `ERROR`: in that
case the message is `lexical error: <token text>` and the prior error is
chained as the secondary cause; in every other case nothing is chained, and
the message appends `at or near "<token text>"` to the prior message, itself
prefixed with `syntax error` unless that text already occurs in it. -/
theorem populate_error_classification (tokID : Int) (tokStr : String) (tokPos : Int)
    (lastErr : GoError) (lIn : String) :
    (tokID = ERROR →
      errMsg (PopulateErrorDetails tokID tokStr tokPos lastErr lIn) = "lexical error: " ++ tokStr
      ∧ lexicalChained (PopulateErrorDetails tokID tokStr tokPos lastErr lIn) = some lastErr)
    ∧ (tokID ≠ ERROR →
      lexicalChained (PopulateErrorDetails tokID tokStr tokPos lastErr lIn) = none
      ∧ ("syntax error".data <:+: (errMsg lastErr).data →
          errMsg (PopulateErrorDetails tokID tokStr tokPos lastErr lIn)
            = ("at or near \"" ++ tokStr ++ "\"") ++ ": " ++ errMsg lastErr)
      ∧ (¬("syntax error".data <:+: (errMsg lastErr).data) →
          errMsg (PopulateErrorDetails tokID tokStr tokPos lastErr lIn)
            = ("at or near \"" ++ tokStr ++ "\"") ++ ": "
              ++ ("syntax error" ++ ": " ++ errMsg lastErr))) := by
  constructor
  · intro h
    unfold PopulateErrorDetails
    rw [if_pos h]
    exact ⟨rfl, rfl⟩
  · intro h
    unfold PopulateErrorDetails
    rw [if_neg h]
    refine ⟨rfl, ?_, ?_⟩
    · intro hin
      rw [if_pos ((goContains_iff (errMsg lastErr) "syntax error").mpr hin)]
      rfl
    · intro hnin
      rw [if_neg (fun hb => hnin ((goContains_iff (errMsg lastErr) "syntax error").mp hb))]
      rfl

theorem populate_error_classification_witness :
    (errMsg (PopulateErrorDetails ERROR "@#$" 0 (GoError.newErr "scan fail") "x")
        = "lexical error: " ++ "@#$"
      ∧ lexicalChained (PopulateErrorDetails ERROR "@#$" 0 (GoError.newErr "scan fail") "x")
        = some (GoError.newErr "scan fail"))
    ∧ (lexicalChained (PopulateErrorDetails IDENT "tok" 0 (GoError.newErr "m") "x") = none
      ∧ errMsg (PopulateErrorDetails IDENT "tok" 0 (GoError.newErr "m") "x")
        = ("at or near \"" ++ "tok" ++ "\"") ++ ": " ++ ("syntax error" ++ ": " ++ "m")) := by
  have h1 := (populate_error_classification ERROR "@#$" 0 (GoError.newErr "scan fail") "x").1 rfl
  have h2 := (populate_error_classification IDENT "tok" 0 (GoError.newErr "m") "x").2 (by decide)
  exact ⟨⟨h1.1, h1.2⟩, ⟨h2.1, h2.2.2 (by decide)⟩⟩

/-- Claim C5: for every source text and token offset within it, the detail
block is the header, then the source text verbatim up to the end of the line
containing the offset (forward to the nearest newline, or the end of input),
then a newline and a caret line whose leading spaces number the offset minus
the position just after the preceding newline (or the start of input); at
line 2 column 5 this yields exactly 4 leading spaces, and the quoted source
reproduces the input through the end of line 2. -/
theorem populate_error_detail_block (lIn : List Char) (p : Nat) (hp : p ≤ lIn.length) :
    ∃ i j, p ≤ i ∧ i ≤ lIn.length
      ∧ (∀ m, p ≤ m → m < i → lIn.get? m ≠ some '\n')
      ∧ (i = lIn.length ∨ lIn.get? i = some '\n')
      ∧ j ≤ p
      ∧ (j = 0 ∨ lIn.get? (j - 1) = some '\n')
      ∧ (∀ m, j ≤ m → m < p → lIn.get? m ≠ some '\n')
      ∧ detailBuf lIn p
          = ("source SQL:\n".data ++ lIn.take i ++ ('\n' :: List.replicate (p - j) ' '))
            ++ ['^'] := by
  have hE : p ≤ lineEnd lIn p ∧ lineEnd lIn p ≤ lIn.length
      ∧ (∀ m, p ≤ m → m < lineEnd lIn p → lIn.get? m ≠ some '\n')
      ∧ (lineEnd lIn p = lIn.length ∨ lIn.get? (lineEnd lIn p) = some '\n') := by
    cases hx : indexOfChar (lIn.drop p) '\n' with
    | none =>
      have hle : lineEnd lIn p = lIn.length := by
        unfold lineEnd
        rw [hx]
      rw [hle]
      refine ⟨hp, Nat.le_refl _, ?_, Or.inl rfl⟩
      intro m hm1 hm2 hc
      apply indexOfChar_none '\n' (lIn.drop p) hx (m - p)
      rw [List.get?_drop]
      have hmp : p + (m - p) = m := by omega
      rw [hmp]
      exact hc
    | some k =>
      have hle : lineEnd lIn p = k + p := by
        unfold lineEnd
        rw [hx]
      rcases indexOfChar_some '\n' (lIn.drop p) k hx with ⟨hget, hbef⟩
      rw [List.get?_drop] at hget
      have hlt : p + k < lIn.length := (List.get?_eq_some.mp hget).1
      rw [hle]
      refine ⟨by omega, by omega, ?_, Or.inr ?_⟩
      · intro m hm1 hm2 hc
        apply hbef (m - p) (by omega)
        rw [List.get?_drop]
        have hmp : p + (m - p) = m := by omega
        rw [hmp]
        exact hc
      · have hkp : k + p = p + k := by omega
        rw [hkp]
        exact hget
  have hS : lineStart lIn p ≤ p
      ∧ (lineStart lIn p = 0 ∨ lIn.get? (lineStart lIn p - 1) = some '\n')
      ∧ (∀ m, lineStart lIn p ≤ m → m < p → lIn.get? m ≠ some '\n') := by
    cases hx : lastIndexOfChar (lIn.take p) '\n' with
    | none =>
      have hls : lineStart lIn p = 0 := by
        unfold lineStart
        rw [hx]
      rw [hls]
      refine ⟨Nat.zero_le p, Or.inl rfl, ?_⟩
      intro m _ hm2 hc
      apply lastIndexOfChar_none '\n' (lIn.take p) hx m
      rw [List.get?_take hm2]
      exact hc
    | some k =>
      have hls : lineStart lIn p = k + 1 := by
        unfold lineStart
        rw [hx]
      rcases lastIndexOfChar_some '\n' (lIn.take p) k hx with ⟨hget, haft⟩
      have hkp : k < p := by
        have hkl := (List.get?_eq_some.mp hget).1
        simp [List.length_take] at hkl
        omega
      rw [List.get?_take hkp] at hget
      rw [hls]
      refine ⟨by omega, Or.inr ?_, ?_⟩
      · have h1 : k + 1 - 1 = k := by omega
        rw [h1]
        exact hget
      · intro m hm1 hm2 hc
        apply haft m (by omega)
        rw [List.get?_take hm2]
        exact hc
  exact ⟨lineEnd lIn p, lineStart lIn p, hE.1, hE.2.1, hE.2.2.1, hE.2.2.2,
    hS.1, hS.2.1, hS.2.2, rfl⟩

theorem populate_error_detail_block_witness :
    7 ≤ "ab\ncdefg\nhi".data.length
    ∧ (∃ i j, 7 ≤ i ∧ i ≤ "ab\ncdefg\nhi".data.length
      ∧ (∀ m, 7 ≤ m → m < i → "ab\ncdefg\nhi".data.get? m ≠ some '\n')
      ∧ (i = "ab\ncdefg\nhi".data.length ∨ "ab\ncdefg\nhi".data.get? i = some '\n')
      ∧ j ≤ 7
      ∧ (j = 0 ∨ "ab\ncdefg\nhi".data.get? (j - 1) = some '\n')
      ∧ (∀ m, j ≤ m → m < 7 → "ab\ncdefg\nhi".data.get? m ≠ some '\n')
      ∧ detailBuf "ab\ncdefg\nhi".data 7
          = ("source SQL:\n".data ++ "ab\ncdefg\nhi".data.take i
              ++ ('\n' :: List.replicate (7 - j) ' ')) ++ ['^'])
    ∧ detailBuf "ab\ncdefg\nhi".data 7 = "source SQL:\nab\ncdefg\n    ^".data :=
  ⟨by decide, populate_error_detail_block "ab\ncdefg\nhi".data 7 (by decide), by decide⟩

/-- Claim C3: an in-range SET token is rewritten to `SET_TRACING` exactly
when (1) the next token is TRACING and the literal text of the token after it
is not `"."`, or (2) the next token is SESSION, the second-next is TRACING,
and the literal text of the third-next token is not `"."`; otherwise the
identity stays SET. -/
theorem lex_set_tracing_rule (toks : List sqlSymType) (pos : Nat) (hlt : pos < toks.length)
    (hid : (tokenAt toks pos).id = SET) :
    (∀ l : LexerState, l.tokens = toks → l.lastPos + 1 = (pos : Int) →
        l.Lex.2.1.id = rewriteId toks pos)
    ∧ (rewriteId toks pos = SET_TRACING ↔
      ((nextTokAt toks pos).id = TRACING ∧ (secondTokAt toks pos).str ≠ ".")
      ∨ ((nextTokAt toks pos).id = SESSION ∧ (secondTokAt toks pos).id = TRACING
          ∧ (thirdTokAt toks pos).str ≠ "."))
    ∧ (rewriteId toks pos = SET_TRACING ∨ rewriteId toks pos = SET) := by
  refine ⟨fun l hts hpos => by subst hts; exact Lex_id l pos hpos hlt, ?_⟩
  rw [rewriteId_of_set toks pos hid]
  unfold lookaheadRewrite
  rw [if_neg (by decide : ¬(SET = AS)), if_neg (by decide : ¬(SET = NOT)),
    if_neg (by decide : ¬(SET = GENERATED)), if_neg (by decide : ¬(SET = WITH)),
    if_neg (by decide : ¬(SET = NULLS)), if_neg (by decide : ¬(SET = RESET)),
    if_neg (by decide : ¬(SET = ROLE)), if_neg (by decide : ¬(SET = USER)),
    if_neg (by decide : ¬(SET = ON)), if_neg (by decide : ¬(SET = TENANT)),
    if_neg (by decide : ¬(SET = CLUSTER)), if_pos (rfl : SET = SET)]
  by_cases h1 : (nextTokAt toks pos).id = TRACING
  · rw [if_pos h1]
    by_cases h2 : (secondTokAt toks pos).str ≠ "."
    · rw [if_pos h2]
      exact ⟨⟨fun _ => Or.inl ⟨h1, h2⟩, fun _ => rfl⟩, Or.inl rfl⟩
    · rw [if_neg h2]
      push_neg at h2
      refine ⟨⟨fun hc => absurd hc (by decide), ?_⟩, Or.inr rfl⟩
      rintro (⟨_, hne⟩ | ⟨hs, _⟩)
      · exact absurd h2 hne
      · rw [h1] at hs
        exact absurd hs (by decide)
  · rw [if_neg h1]
    by_cases h3 : (nextTokAt toks pos).id = SESSION
    · rw [if_pos h3]
      by_cases h4 : (secondTokAt toks pos).id = TRACING
      · rw [if_pos h4]
        by_cases h5 : (thirdTokAt toks pos).str ≠ "."
        · rw [if_pos h5]
          exact ⟨⟨fun _ => Or.inr ⟨h3, h4, h5⟩, fun _ => rfl⟩, Or.inl rfl⟩
        · rw [if_neg h5]
          push_neg at h5
          refine ⟨⟨fun hc => absurd hc (by decide), ?_⟩, Or.inr rfl⟩
          rintro (⟨ht, _⟩ | ⟨_, _, hne⟩)
          · exact absurd ht h1
          · exact absurd h5 hne
      · rw [if_neg h4]
        refine ⟨⟨fun hc => absurd hc (by decide), ?_⟩, Or.inr rfl⟩
        rintro (⟨ht, _⟩ | ⟨_, ht2, _⟩)
        · exact absurd ht h1
        · exact absurd ht2 h4
    · rw [if_neg h3]
      refine ⟨⟨fun hc => absurd hc (by decide), ?_⟩, Or.inr rfl⟩
      rintro (⟨ht, _⟩ | ⟨hs, _, _⟩)
      · exact absurd ht h1
      · exact absurd hs h3

theorem lex_set_tracing_rule_witness :
    rewriteId [⟨SET, 0, "set"⟩, ⟨TRACING, 4, "tracing"⟩, ⟨61, 12, "="⟩, ⟨IDENT, 14, "on"⟩] 0
      = SET_TRACING
    ∧ rewriteId [⟨SET, 0, "set"⟩, ⟨TRACING, 4, "tracing"⟩, ⟨46, 11, "."⟩, ⟨IDENT, 12, "custom"⟩,
        ⟨61, 19, "="⟩, ⟨IDENT, 21, "1"⟩] 0 = SET := by
  have h1 := lex_set_tracing_rule
    [⟨SET, 0, "set"⟩, ⟨TRACING, 4, "tracing"⟩, ⟨61, 12, "="⟩, ⟨IDENT, 14, "on"⟩] 0
    (by decide) rfl
  have h2 := lex_set_tracing_rule
    [⟨SET, 0, "set"⟩, ⟨TRACING, 4, "tracing"⟩, ⟨46, 11, "."⟩, ⟨IDENT, 12, "custom"⟩,
      ⟨61, 19, "="⟩, ⟨IDENT, 21, "1"⟩] 0 (by decide) rfl
  refine ⟨h1.2.1.mpr (by decide), ?_⟩
  rcases h2.2.2 with hc | hc
  · exact absurd (h2.2.1.mp hc) (by decide)
  · exact hc

/-- SCRUB-style stream `OPTIONS INDEX abc (` (claim C1's counterexample). -/
def exOptionsIndexName : List sqlSymType :=
  [⟨OPTIONS, 0, "options"⟩, ⟨INDEX, 8, "index"⟩, ⟨IDENT, 14, "abc"⟩, ⟨40, 18, "("⟩]

/-- Claim C1 as stated is false: with previous token OPTIONS (which satisfies
the claimed "previous token is `,` or OPTIONS" condition), next token
non-punctuation and second-next `(`, the code leaves INDEX unchanged instead
of rewriting to the before-name-then-paren variant: the name-then-paren rule
does not include the OPTIONS preceding condition. -/
theorem lex_index_paren_rules_cex :
    (tokenAt exOptionsIndexName 1).id = INDEX
    ∧ prevIdAt exOptionsIndexName 1 = OPTIONS
    ∧ 255 < nextIdAt exOptionsIndexName 1
    ∧ secondIdAt exOptionsIndexName 1 = 40
    ∧ rewriteId exOptionsIndexName 1 = INDEX
    ∧ INDEX ≠ INDEX_BEFORE_NAME_THEN_PAREN := by
  decide

/-- Claim C1, amended: for an in-range INDEX token, the before-paren rewrite
fires exactly when one of the three preceding conditions (after `,`/`(`;
after `,`/OPTIONS; after INVERTED itself after `,`/`(`) holds and the next
token is `(`; the before-name-then-paren rewrite fires exactly when one of
the first and third preceding conditions — the `,`/OPTIONS condition does
not participate in this second rule — holds, the next token is
non-punctuation (identity > 255) and the second-next is `(`.  Before-paren is
checked first; the two next-token conditions are mutually exclusive. -/
theorem lex_index_paren_rules_amended (toks : List sqlSymType) (pos : Nat)
    (hlt : pos < toks.length) (hid : (tokenAt toks pos).id = INDEX) :
    (∀ l : LexerState, l.tokens = toks → l.lastPos + 1 = (pos : Int) →
        l.Lex.2.1.id = rewriteId toks pos)
    ∧ (rewriteId toks pos = INDEX_BEFORE_PAREN ↔
      (((prevIdAt toks pos = 44 ∨ prevIdAt toks pos = 40)
        ∨ (prevIdAt toks pos = 44 ∨ prevIdAt toks pos = OPTIONS)
        ∨ (prevIdAt toks pos = INVERTED ∧ (pprevIdAt toks pos = 44 ∨ pprevIdAt toks pos = 40)))
       ∧ nextIdAt toks pos = 40))
    ∧ (rewriteId toks pos = INDEX_BEFORE_NAME_THEN_PAREN ↔
      (((prevIdAt toks pos = 44 ∨ prevIdAt toks pos = 40)
        ∨ (prevIdAt toks pos = INVERTED ∧ (pprevIdAt toks pos = 44 ∨ pprevIdAt toks pos = 40)))
       ∧ (255 < nextIdAt toks pos ∧ secondIdAt toks pos = 40))) := by
  refine ⟨fun l hts hpos => by subst hts; exact Lex_id l pos hpos hlt, ?_⟩
  rw [rewriteId_of_index toks pos hid]
  unfold indexRewrite
  by_cases c1 : ((prevIdAt toks pos = 44 ∨ prevIdAt toks pos = 40) ∧ nextIdAt toks pos = 40)
      ∨ ((prevIdAt toks pos = 44 ∨ prevIdAt toks pos = OPTIONS) ∧ nextIdAt toks pos = 40)
      ∨ ((prevIdAt toks pos = INVERTED ∧ (pprevIdAt toks pos = 44 ∨ pprevIdAt toks pos = 40))
          ∧ nextIdAt toks pos = 40)
  · rw [if_pos c1]
    constructor
    · constructor
      · intro _
        rcases c1 with ⟨hp, hf⟩ | ⟨hp, hf⟩ | ⟨hp, hf⟩
        · exact ⟨Or.inl hp, hf⟩
        · exact ⟨Or.inr (Or.inl hp), hf⟩
        · exact ⟨Or.inr (Or.inr hp), hf⟩
      · intro _
        rfl
    · constructor
      · intro hc
        exact absurd hc (by decide)
      · rintro ⟨_, h255, _⟩
        exfalso
        rcases c1 with ⟨_, hf⟩ | ⟨_, hf⟩ | ⟨_, hf⟩ <;> omega
  · rw [if_neg c1]
    by_cases c2 : ((prevIdAt toks pos = 44 ∨ prevIdAt toks pos = 40)
        ∧ (255 < nextIdAt toks pos ∧ secondIdAt toks pos = 40))
      ∨ ((prevIdAt toks pos = INVERTED ∧ (pprevIdAt toks pos = 44 ∨ pprevIdAt toks pos = 40))
          ∧ (255 < nextIdAt toks pos ∧ secondIdAt toks pos = 40))
    · rw [if_pos c2]
      constructor
      · constructor
        · intro hc
          exact absurd hc (by decide)
        · rintro ⟨_, hf⟩
          exfalso
          rcases c2 with ⟨_, h255, _⟩ | ⟨_, h255, _⟩ <;> omega
      · constructor
        · intro _
          rcases c2 with ⟨hp, hf⟩ | ⟨hp, hf⟩
          · exact ⟨Or.inl hp, hf⟩
          · exact ⟨Or.inr hp, hf⟩
        · intro _
          rfl
    · rw [if_neg c2]
      have hno : ∀ v : Int,
          (if (prevIdAt toks pos = 44 ∨ (prevIdAt toks pos = BY ∧ pprevIdAt toks pos = ORDER))
              ∧ atScanLoop toks pos 6 (pos + 1) = true
            then INDEX_AFTER_ORDER_BY_BEFORE_AT else INDEX) = v
          → v = INDEX_AFTER_ORDER_BY_BEFORE_AT ∨ v = INDEX := by
        intro v hv
        by_cases c3 : (prevIdAt toks pos = 44
            ∨ (prevIdAt toks pos = BY ∧ pprevIdAt toks pos = ORDER))
            ∧ atScanLoop toks pos 6 (pos + 1) = true
        · rw [if_pos c3] at hv
          exact Or.inl hv.symm
        · rw [if_neg c3] at hv
          exact Or.inr hv.symm
      constructor
      · constructor
        · intro hc
          rcases hno _ hc with h | h <;> exact absurd h.symm (by decide)
        · rintro ⟨hp, hf⟩
          exfalso
          apply c1
          rcases hp with h | h | h
          · exact Or.inl ⟨h, hf⟩
          · exact Or.inr (Or.inl ⟨h, hf⟩)
          · exact Or.inr (Or.inr ⟨h, hf⟩)
      · constructor
        · intro hc
          rcases hno _ hc with h | h <;> exact absurd h.symm (by decide)
        · rintro ⟨hp, hf⟩
          exfalso
          apply c2
          rcases hp with h | h
          · exact Or.inl ⟨h, hf⟩
          · exact Or.inr ⟨h, hf⟩

theorem lex_index_paren_rules_amended_witness :
    rewriteId [⟨40, 0, "("⟩, ⟨INDEX, 1, "index"⟩, ⟨40, 7, "("⟩] 1 = INDEX_BEFORE_PAREN
    ∧ rewriteId [⟨40, 0, "("⟩, ⟨INDEX, 1, "index"⟩, ⟨IDENT, 7, "abc"⟩, ⟨40, 11, "("⟩] 1
        = INDEX_BEFORE_NAME_THEN_PAREN := by
  have h1 := lex_index_paren_rules_amended [⟨40, 0, "("⟩, ⟨INDEX, 1, "index"⟩, ⟨40, 7, "("⟩] 1
    (by decide) rfl
  have h2 := lex_index_paren_rules_amended
    [⟨40, 0, "("⟩, ⟨INDEX, 1, "index"⟩, ⟨IDENT, 7, "abc"⟩, ⟨40, 11, "("⟩] 1 (by decide) rfl
  exact ⟨h1.2.1.mpr (by decide), h2.2.2.mpr (by decide)⟩

/-- Stream `, INDEX <id 255> @` (claim C2's boundary counterexample). -/
def exCommaIndex255 : List sqlSymType :=
  [⟨44, 0, ","⟩, ⟨INDEX, 1, "index"⟩, ⟨255, 7, "x"⟩, ⟨64, 8, "@"⟩]

/-- Stream `, INDEX (` (claim C2's precedence counterexample). -/
def exCommaIndexParen : List sqlSymType :=
  [⟨44, 0, ","⟩, ⟨INDEX, 1, "index"⟩, ⟨40, 7, "("⟩]

/-- Claim C2 as stated is false on two counts.  (1) Boundary: the code
treats identity exactly 255 as identifier/keyword-class (`curToken < 255`
aborts the scan), while the claim's identifier/keyword-class is
identity > 255: in `, INDEX <id 255> @` the token before the `'@'` is
neither `> 255` nor `'.'`, so the claim predicts no retag, yet the code
retags.  (2) Precedence: in `, INDEX (` the scan meets the non-identifier
`'('` before any `'@'`, so the claim predicts the INDEX identity is left
unchanged, yet the higher-precedence before-paren rule has already rewritten
it. -/
theorem lex_index_order_by_at_cex :
    ((tokenAt exCommaIndex255 1).id = INDEX
    ∧ prevIdAt exCommaIndex255 1 = 44
    ∧ ¬(255 < (tokenAt exCommaIndex255 2).id)
    ∧ (tokenAt exCommaIndex255 2).id ≠ 46
    ∧ (tokenAt exCommaIndex255 3).id = 64
    ∧ rewriteId exCommaIndex255 1 = INDEX_AFTER_ORDER_BY_BEFORE_AT
    ∧ INDEX_AFTER_ORDER_BY_BEFORE_AT ≠ INDEX)
    ∧ ((tokenAt exCommaIndexParen 1).id = INDEX
    ∧ prevIdAt exCommaIndexParen 1 = 44
    ∧ ¬(255 < (tokenAt exCommaIndexParen 2).id)
    ∧ (tokenAt exCommaIndexParen 2).id ≠ 46
    ∧ (tokenAt exCommaIndexParen 2).id ≠ 64
    ∧ rewriteId exCommaIndexParen 1 = INDEX_BEFORE_PAREN
    ∧ INDEX_BEFORE_PAREN ≠ INDEX) := by
  decide

/-- Claim C2, amended: for an in-range INDEX token on which neither of the
two higher-precedence before-paren rules fires, whose previous token is `,`
or is BY itself preceded by ORDER, the identity is rewritten to the
after-ORDER-BY-before-at variant exactly when, within the six-token window,
some `'@'` not immediately following INDEX is reached over tokens that are
all of identifier/keyword-class — taken, as the code does, as identity at
least 255 — or `'.'`; otherwise (still with neither before-paren rule
firing) the INDEX identity is left unchanged. -/
theorem lex_index_order_by_at_amended (toks : List sqlSymType) (pos : Nat)
    (hlt : pos < toks.length) (hid : (tokenAt toks pos).id = INDEX)
    (h1 : ¬(((prevIdAt toks pos = 44 ∨ prevIdAt toks pos = 40) ∧ nextIdAt toks pos = 40)
      ∨ ((prevIdAt toks pos = 44 ∨ prevIdAt toks pos = OPTIONS) ∧ nextIdAt toks pos = 40)
      ∨ ((prevIdAt toks pos = INVERTED ∧ (pprevIdAt toks pos = 44 ∨ pprevIdAt toks pos = 40))
          ∧ nextIdAt toks pos = 40)))
    (h2 : ¬(((prevIdAt toks pos = 44 ∨ prevIdAt toks pos = 40)
        ∧ (255 < nextIdAt toks pos ∧ secondIdAt toks pos = 40))
      ∨ ((prevIdAt toks pos = INVERTED ∧ (pprevIdAt toks pos = 44 ∨ pprevIdAt toks pos = 40))
          ∧ (255 < nextIdAt toks pos ∧ secondIdAt toks pos = 40)))) :
    (∀ l : LexerState, l.tokens = toks → l.lastPos + 1 = (pos : Int) →
        l.Lex.2.1.id = rewriteId toks pos)
    ∧ (rewriteId toks pos = INDEX_AFTER_ORDER_BY_BEFORE_AT ↔
      ((prevIdAt toks pos = 44 ∨ (prevIdAt toks pos = BY ∧ pprevIdAt toks pos = ORDER))
       ∧ ∃ k < pos + 7, pos + 2 ≤ k ∧ k < toks.length ∧ (tokenAt toks k).id = 64 ∧
           ∀ m < k, pos + 1 ≤ m → (255 ≤ (tokenAt toks m).id ∨ (tokenAt toks m).id = 46)))
    ∧ (¬((prevIdAt toks pos = 44 ∨ (prevIdAt toks pos = BY ∧ pprevIdAt toks pos = ORDER))
       ∧ ∃ k < pos + 7, pos + 2 ≤ k ∧ k < toks.length ∧ (tokenAt toks k).id = 64 ∧
           ∀ m < k, pos + 1 ≤ m → (255 ≤ (tokenAt toks m).id ∨ (tokenAt toks m).id = 46))
      → rewriteId toks pos = INDEX) := by
  refine ⟨fun l hts hpos => by subst hts; exact Lex_id l pos hpos hlt, ?_⟩
  rw [rewriteId_of_index toks pos hid]
  unfold indexRewrite
  rw [if_neg h1, if_neg h2]
  have hscan := atScanLoop_true_iff toks pos 6 (pos + 1) (by omega)
  have hforward : ((prevIdAt toks pos = 44
        ∨ (prevIdAt toks pos = BY ∧ pprevIdAt toks pos = ORDER))
      ∧ atScanLoop toks pos 6 (pos + 1) = true)
      → ((prevIdAt toks pos = 44 ∨ (prevIdAt toks pos = BY ∧ pprevIdAt toks pos = ORDER))
       ∧ ∃ k < pos + 7, pos + 2 ≤ k ∧ k < toks.length ∧ (tokenAt toks k).id = 64 ∧
           ∀ m < k, pos + 1 ≤ m → (255 ≤ (tokenAt toks m).id ∨ (tokenAt toks m).id = 46)) := by
    rintro ⟨hprev, hsc⟩
    refine ⟨hprev, ?_⟩
    rcases hscan.mp hsc with ⟨k, hik, hklen, hk7, hk64, hkne, hall⟩
    exact ⟨k, hk7, by omega, hklen, hk64, fun m hmk hm1 => hall m hm1 hmk⟩
  have hback : ((prevIdAt toks pos = 44 ∨ (prevIdAt toks pos = BY ∧ pprevIdAt toks pos = ORDER))
       ∧ ∃ k < pos + 7, pos + 2 ≤ k ∧ k < toks.length ∧ (tokenAt toks k).id = 64 ∧
           ∀ m < k, pos + 1 ≤ m → (255 ≤ (tokenAt toks m).id ∨ (tokenAt toks m).id = 46))
      → ((prevIdAt toks pos = 44 ∨ (prevIdAt toks pos = BY ∧ pprevIdAt toks pos = ORDER))
        ∧ atScanLoop toks pos 6 (pos + 1) = true) := by
    rintro ⟨hprev, k, hk7, hk2, hklen, hk64, hall⟩
    exact ⟨hprev, hscan.mpr ⟨k, by omega, hklen, hk7, hk64, by omega,
      fun m hm1 hmk => hall m hmk hm1⟩⟩
  constructor
  · constructor
    · intro hc
      by_cases c3 : (prevIdAt toks pos = 44
          ∨ (prevIdAt toks pos = BY ∧ pprevIdAt toks pos = ORDER))
          ∧ atScanLoop toks pos 6 (pos + 1) = true
      · exact hforward c3
      · rw [if_neg c3] at hc
        exact absurd hc (by decide)
    · intro hr
      rw [if_pos (hback hr)]
  · intro hn
    by_cases c3 : (prevIdAt toks pos = 44
        ∨ (prevIdAt toks pos = BY ∧ pprevIdAt toks pos = ORDER))
        ∧ atScanLoop toks pos 6 (pos + 1) = true
    · exact absurd (hforward c3) hn
    · rw [if_neg c3]

/-- Stream `ORDER BY index t.a@idx` (retag expected). -/
def exOrderByAt : List sqlSymType :=
  [⟨ORDER, 0, "order"⟩, ⟨BY, 6, "by"⟩, ⟨INDEX, 9, "index"⟩, ⟨IDENT, 15, "t"⟩,
    ⟨46, 16, "."⟩, ⟨IDENT, 17, "a"⟩, ⟨64, 18, "@"⟩, ⟨IDENT, 19, "idx"⟩]

/-- Stream `ORDER BY index` (no `@` in the window: no retag). -/
def exOrderByPlain : List sqlSymType :=
  [⟨ORDER, 0, "order"⟩, ⟨BY, 6, "by"⟩, ⟨INDEX, 9, "index"⟩]

theorem lex_index_order_by_at_amended_witness :
    rewriteId exOrderByAt 2 = INDEX_AFTER_ORDER_BY_BEFORE_AT
    ∧ rewriteId exOrderByPlain 2 = INDEX := by
  have h1 := lex_index_order_by_at_amended exOrderByAt 2 (by decide) rfl
    (by decide) (by decide)
  have h2 := lex_index_order_by_at_amended exOrderByPlain 2 (by decide) rfl
    (by decide) (by decide)
  exact ⟨h1.2.1.mpr (by decide), h2.2.2 (by decide)⟩
